import Mathlib

/-!
# codersdk git-auth client (`codersdk/gitauth.go`)

A shallow embedding of the four client operations `GitAuthDeviceByID`,
`GitAuthDeviceExchange`, `GitAuthByID` and `GitAuthReposByID`, together with the parts of
their environment they touch: the HTTP request and its URL, `url.Values`, the transport
`Client.Request`, `ReadBodyAsError` and the JSON decoder.

Conventions.
* Go `int` is `Int` (no arithmetic is performed on it, only comparisons and rendering).
* A Go `error` is `Option SDKError`; `none` is `nil`.
* A nil pointer is `none`, a nil or empty slice is `[]`.
* Every operation returns, next to its Go results, the list of external calls it made, in
  order (`Result.calls`), so that "calls the transport once" or "does not decode the body"
  can be stated.
-/

namespace Codersdk

/-! ## Errors and JSON documents -/

/-- The Go errors the operations can return: the error of a failed `c.Request`, the error
built by `ReadBodyAsError` from a response, and the error of `json.Decoder.Decode`. -/
inductive SDKError where
  | transport (msg : String)
  | provider (status : Int) (message : String)
  | decode (msg : String)
  deriving DecidableEq, Repr

/-- A JSON document. `number` is an integer literal, `float` a number literal with a
fraction or an exponent (kept as its text). Object members keep their order and may repeat. -/
inductive JSON where
  | null
  | bool (b : Bool)
  | number (n : Int)
  | float (lit : String)
  | string (s : String)
  | array (elems : List JSON)
  | object (members : List (String × JSON))
  deriving Repr

/-- What a reader finds on `res.Body`: a first JSON value, or bytes that are no JSON value
(the empty body included). -/
inductive Body where
  | invalid (raw : String)
  | value (doc : JSON)
  deriving Repr

/-! ## `net/url`: URL, query values -/

/-- The fields of `url.URL` that matter to a request of this client. -/
structure URL where
  Scheme : String := ""
  Host : String := ""
  Path : String := ""
  RawQuery : String := ""
  deriving DecidableEq, Repr

/-- The Go type `url.Values`, a `map[string][]string`, as an association list with at most
one entry per key. -/
abbrev Values := List (String × List String)

/-- The Go expression `v[key]` (nil slice when the key is absent). -/
def Values.index (v : Values) (key : String) : List String :=
  (v.lookup key).getD []

/-- Whether `key` is a key of the map. -/
def Values.Has (v : Values) (key : String) : Bool :=
  (v.lookup key).isSome

/-- The method `Values.Set`: `v[key] = []string{value}`. -/
def Values.Set (v : Values) (key value : String) : Values :=
  (key, [value]) :: v.filter (fun kv => kv.1 != key)

/-- The method `Values.Add`: `v[key] = append(v[key], value)`. -/
def Values.Add (v : Values) (key value : String) : Values :=
  (key, v.index key ++ [value]) :: v.filter (fun kv => kv.1 != key)

/-- The function `strings.Cut(s, sep)` for a one-character separator, on character lists:
the text before the first `sep`, the text after it, and whether `sep` was found. -/
def cut (sep : Char) : List Char → List Char × List Char × Bool
  | [] => ([], [], false)
  | c :: cs =>
    if c = sep then ([], cs, true)
    else
      let r := cut sep cs
      (c :: r.1, r.2.1, r.2.2)

/-- Value of a hexadecimal digit (`unhex`), `none` when `c` is not one (`ishex`). -/
def unhex (c : Char) : Option Nat :=
  if '0' ≤ c ∧ c ≤ '9' then some (c.toNat - '0'.toNat)
  else if 'a' ≤ c ∧ c ≤ 'f' then some (c.toNat - 'a'.toNat + 10)
  else if 'A' ≤ c ∧ c ≤ 'F' then some (c.toNat - 'A'.toNat + 10)
  else none

/-- The function `url.QueryUnescape`: `+` becomes a space, `%XY` the byte `0xXY`; a `%` not
followed by two hexadecimal digits is an error (`none`). An escaped byte is kept as the
character with that code, which is exact for ASCII. -/
def QueryUnescape : List Char → Option (List Char)
  | [] => some []
  | '%' :: a :: b :: rest =>
    match unhex a, unhex b with
    | some x, some y => (QueryUnescape rest).map (Char.ofNat (16 * x + y) :: ·)
    | _, _ => none
  | '%' :: _ => none
  | '+' :: rest => (QueryUnescape rest).map (' ' :: ·)
  | c :: rest => (QueryUnescape rest).map (c :: ·)

/-- One round of the loop of `url.parseQuery` on the segment `seg` (the text up to the next
`&`): a segment with a semicolon, an empty segment or one with a bad escape is skipped,
otherwise the value is appended under the key. -/
def parseQuerySegment (m : Values) (seg : List Char) : Values :=
  if seg.contains ';' then m
  else if seg = [] then m
  else
    let kv := cut '=' seg
    match QueryUnescape kv.1, QueryUnescape kv.2.1 with
    | some key, some value => m.Add (String.mk key) (String.mk value)
    | _, _ => m

/-- The loop of `url.parseQuery`: `fuel` bounds the number of segments. -/
def parseQueryLoop : Nat → Values → List Char → Values
  | 0, m, _ => m
  | fuel + 1, m, query =>
    if query = [] then m
    else
      let r := cut '&' query
      parseQueryLoop fuel (parseQuerySegment m r.1) r.2.1

/-- The method `(*URL).Query`: `ParseQuery(u.RawQuery)` with the error dropped. Every round
of the loop consumes at least one character or ends it, so the length of the query is
enough fuel. -/
def URL.Query (u : URL) : Values :=
  parseQueryLoop (u.RawQuery.length + 1) [] u.RawQuery.toList

/-! ## `net/http`: request and response -/

/-- The part of `http.Request` the client sets: method, URL and the JSON request body. -/
structure Request where
  Method : String
  URL : URL
  Body : Option JSON := none
  deriving Repr

/-- The part of `http.Response` the operations read. -/
structure Response where
  StatusCode : Int
  Body : Body
  deriving Repr

/-- The constant `http.MethodGet`. -/
def MethodGet : String := "GET"

/-- The constant `http.MethodPost`. -/
def MethodPost : String := "POST"

/-- The constant `http.StatusOK`. -/
def StatusOK : Int := 200

/-- The constant `http.StatusNoContent`. -/
def StatusNoContent : Int := 204

/-- The Go type `RequestOption`, `func(*http.Request)`: it may change the request in place. -/
abbrev RequestOption := Request → Request

/-- The function `strconv.Itoa`: the decimal rendering of an integer. -/
def Itoa (n : Int) : String :=
  toString n

/-! ## The client and its helpers (`codersdk/client.go`) -/

/-- The SDK client as far as the operations use it. `NewRequest` stands for the construction
of the `http.Request` from method, path and body (it resolves the path against the server
URL and may fail); `Do` is the round trip of the underlying HTTP client, which answers with
a response or fails with an error. -/
structure Client where
  NewRequest : String → String → Option JSON → Except SDKError Request
  Do : Request → Except SDKError Response

/-- The request that the round trip of `c.Request` is performed on: the request built from
method, path and body, after every request option has run on it, in order. `none` when the
request could not be built. -/
def Client.sent (c : Client) (method path : String) (body : Option JSON)
    (opts : List RequestOption) : Option Request :=
  match c.NewRequest method path body with
  | .error _ => none
  | .ok req => some (opts.foldl (fun r opt => opt r) req)

/-- Modelled from the spec: `Client.Request` (the transport of section 2, an external
collaborator; `codersdk/client.go` is not among the sources). It "performs authenticated
HTTP requests against the platform API and returns status code + body": the request is
built, the request options run on it, and one round trip is performed. -/
def Client.Request (c : Client) (method path : String) (body : Option JSON)
    (opts : List RequestOption) : Except SDKError Response :=
  match c.NewRequest method path body with
  | .error err => .error err
  | .ok req => c.Do (opts.foldl (fun r opt => opt r) req)

/-- The message member of a structured error payload, when the body has one. -/
def errorMessage : Body → Option String
  | .value (.object members) =>
    match members.lookup "message" with
    | some (.string s) => some s
    | _ => none
  | _ => none

/-- The generic message keyed by the status code (section 6). -/
def genericMessage (status : Int) : String :=
  "unexpected status code " ++ toString status

/-- Modelled from the spec: `ReadBodyAsError` (`codersdk/client.go` is not among the
sources). Section 4.1: for a non-success response, "decode the body as a structured error
payload and fail with a `ProviderError` carrying the HTTP status and a human-readable
message extracted from the body (falling back to a generic message if the body is not
parseable)". The result is a Go `error` and is never nil. -/
def ReadBodyAsError (res : Response) : Option SDKError :=
  some (.provider res.StatusCode ((errorMessage res.Body).getD (genericMessage res.StatusCode)))

/-- The external calls an operation makes, in the order it makes them: `c.Request` (with the
request the round trip was performed on, if one was built), `ReadBodyAsError(res)`,
`json.NewDecoder(res.Body).Decode(..)` and the deferred `res.Body.Close()`. -/
inductive Event where
  | Request (method path : String) (sent : Option Request)
  | ReadBodyAsError
  | Decode
  | Close
  deriving Repr

/-- The Go results of an operation (`value`, `err`) and the external calls it made. -/
structure Result (α : Type) where
  value : α
  err : Option SDKError
  calls : List Event

/-! ## The data types of `gitauth.go` -/

/-- The Go struct `GitAuthUser`. -/
structure GitAuthUser where
  Login : String := ""
  AvatarURL : String := ""
  ProfileURL : String := ""
  Name : String := ""
  deriving DecidableEq, Repr

/-- The Go struct `GitAuthAppInstallation`. -/
structure GitAuthAppInstallation where
  ID : Int := 0
  Account : GitAuthUser := {}
  ConfigureURL : String := ""
  deriving DecidableEq, Repr

/-- The Go struct `GitAuth`; the field `Type` is `Type_` here. `User` is a pointer. -/
structure GitAuth where
  Authenticated : Bool := false
  Device : Bool := false
  Type_ : String := ""
  User : Option GitAuthUser := none
  AppInstallable : Bool := false
  AppInstallations : List GitAuthAppInstallation := []
  AppInstallURL : String := ""
  deriving DecidableEq, Repr

/-- The Go struct `GitAuthDevice`. -/
structure GitAuthDevice where
  DeviceCode : String := ""
  UserCode : String := ""
  VerificationURI : String := ""
  ExpiresIn : Int := 0
  Interval : Int := 0
  deriving DecidableEq, Repr

/-- The Go struct `GitAuthDeviceExchange`, the request body of the exchange. -/
structure GitAuthDeviceExchange where
  DeviceCode : String := ""
  deriving DecidableEq, Repr

/-- The JSON encoding of a `GitAuthDeviceExchange` (its one field is tagged `device_code`). -/
def GitAuthDeviceExchange.toJSON (req : GitAuthDeviceExchange) : JSON :=
  .object [("device_code", .string req.DeviceCode)]

/-- The Go struct `GitRepo`. -/
structure GitRepo where
  Name : String := ""
  Description : String := ""
  Owner : GitAuthUser := {}
  URL : String := ""
  StargazersCount : Int := 0
  Language : String := ""
  DefaultBranch : String := ""
  deriving DecidableEq, Repr

/-- The Go struct `GitReposOptions`. -/
structure GitReposOptions where
  Page : Int := 0
  PerPage : Int := 0
  InstallationID : Int := 0
  deriving DecidableEq, Repr

/-- The Go struct `GitReposResponse`. -/
structure GitReposResponse where
  Total : Int := 0
  Repos : List GitRepo := []
  deriving DecidableEq, Repr

/-- The decoder `json.NewDecoder(res.Body).Decode(&v)` run on a zero-valued `v`: the value
of `v` afterwards and the error returned. -/
abbrev Decoder (α : Type) := Body → α × Option SDKError

/-! ## `encoding/json` on the struct types of `gitauth.go`

The decoder walks the document and stores what fits: a member is matched to a field by its
JSON name, ignoring case; unknown members are skipped; `null` leaves a non-pointer field as
it is and sets a pointer or a slice to nil; a value of the wrong kind leaves the field as
it is, and the first such error is the one returned once the whole document has been
read. The text of the errors is indicative only. -/

/-- The case folding of `encoding/json` for member names: ASCII letters ignore case, and the
Kelvin sign and the long s fold to `k` and `s`. -/
def foldRune (c : Char) : Char :=
  if c = Char.ofNat 0x212A then 'k'
  else if c = Char.ofNat 0x17F then 's'
  else c.toLower

/-- Whether the member name `key` selects the field whose JSON name is `name`. -/
def equalFold (key name : String) : Bool :=
  key.toList.map foldRune == name.toList.map foldRune

/-- The kind of a JSON value as an `UnmarshalTypeError` reports it. -/
def JSON.kind : JSON → String
  | .null => "null"
  | .bool _ => "bool"
  | .number _ => "number"
  | .float _ => "number"
  | .string _ => "string"
  | .array _ => "array"
  | .object _ => "object"

/-- The error `UnmarshalTypeError` for a value of kind `value` met where `target` is wanted. -/
def unmarshalTypeError (value target : String) : SDKError :=
  .decode ("json: cannot unmarshal " ++ value ++ " into Go value of type " ++ target)

/-- The method `decodeState.saveError`: only the first error is kept. -/
def saveError (saved new : Option SDKError) : Option SDKError :=
  match saved with
  | some err => some err
  | none => new

/-- Decoding into a `bool` that holds `cur`. -/
def decodeBool (cur : Bool) : JSON → Bool × Option SDKError
  | .null => (cur, none)
  | .bool b => (b, none)
  | v => (cur, some (unmarshalTypeError v.kind "bool"))

/-- Decoding into a `string` that holds `cur`. -/
def decodeString (cur : String) : JSON → String × Option SDKError
  | .null => (cur, none)
  | .string s => (s, none)
  | v => (cur, some (unmarshalTypeError v.kind "string"))

/-- Decoding into an `int` (64 bits) that holds `cur`: the literal must be an integer in
range. -/
def decodeInt (cur : Int) : JSON → Int × Option SDKError
  | .null => (cur, none)
  | .number n =>
    if -(2 : Int) ^ 63 ≤ n ∧ n < (2 : Int) ^ 63 then (n, none)
    else (cur, some (unmarshalTypeError "number" "int"))
  | v => (cur, some (unmarshalTypeError v.kind "int"))

/-- Decoding the elements of a JSON array into a slice that holds `cur`: element `i` is
decoded into the element the slice already has at `i`, or into a zero value. -/
def decodeElems {α : Type} (zero : α) (elem : α → JSON → α × Option SDKError) :
    List α → List JSON → List α × Option SDKError
  | _, [] => ([], none)
  | cur, x :: xs =>
    let head := elem (cur.headD zero) x
    let tail := decodeElems zero elem cur.tail xs
    (head.1 :: tail.1, saveError head.2 tail.2)

/-- One member of a JSON object stored into a `GitAuthUser`. -/
def GitAuthUser.setMember (acc : GitAuthUser × Option SDKError) (m : String × JSON) :
    GitAuthUser × Option SDKError :=
  if equalFold m.1 "login" then
    let r := decodeString acc.1.Login m.2
    ({ acc.1 with Login := r.1 }, saveError acc.2 r.2)
  else if equalFold m.1 "avatar_url" then
    let r := decodeString acc.1.AvatarURL m.2
    ({ acc.1 with AvatarURL := r.1 }, saveError acc.2 r.2)
  else if equalFold m.1 "profile_url" then
    let r := decodeString acc.1.ProfileURL m.2
    ({ acc.1 with ProfileURL := r.1 }, saveError acc.2 r.2)
  else if equalFold m.1 "name" then
    let r := decodeString acc.1.Name m.2
    ({ acc.1 with Name := r.1 }, saveError acc.2 r.2)
  else acc

/-- Decoding into a `GitAuthUser` that holds `cur`. -/
def decodeGitAuthUser (cur : GitAuthUser) : JSON → GitAuthUser × Option SDKError
  | .null => (cur, none)
  | .object members => members.foldl GitAuthUser.setMember (cur, none)
  | v => (cur, some (unmarshalTypeError v.kind "codersdk.GitAuthUser"))

/-- Decoding into a `*GitAuthUser` that holds `cur`: `null` sets the pointer to nil; for any
other value a nil pointer is first pointed at a new zero struct, which is then decoded
into. -/
def decodeGitAuthUserPtr (cur : Option GitAuthUser) : JSON → Option GitAuthUser × Option SDKError
  | .null => (none, none)
  | v =>
    let r := decodeGitAuthUser (cur.getD {}) v
    (some r.1, r.2)

/-- One member of a JSON object stored into a `GitAuthAppInstallation`. -/
def GitAuthAppInstallation.setMember (acc : GitAuthAppInstallation × Option SDKError)
    (m : String × JSON) : GitAuthAppInstallation × Option SDKError :=
  if equalFold m.1 "id" then
    let r := decodeInt acc.1.ID m.2
    ({ acc.1 with ID := r.1 }, saveError acc.2 r.2)
  else if equalFold m.1 "account" then
    let r := decodeGitAuthUser acc.1.Account m.2
    ({ acc.1 with Account := r.1 }, saveError acc.2 r.2)
  else if equalFold m.1 "configure_url" then
    let r := decodeString acc.1.ConfigureURL m.2
    ({ acc.1 with ConfigureURL := r.1 }, saveError acc.2 r.2)
  else acc

/-- Decoding into a `GitAuthAppInstallation` that holds `cur`. -/
def decodeGitAuthAppInstallation (cur : GitAuthAppInstallation) :
    JSON → GitAuthAppInstallation × Option SDKError
  | .null => (cur, none)
  | .object members => members.foldl GitAuthAppInstallation.setMember (cur, none)
  | v => (cur, some (unmarshalTypeError v.kind "codersdk.GitAuthAppInstallation"))

/-- Decoding into a `[]GitAuthAppInstallation` that holds `cur`. -/
def decodeGitAuthAppInstallations (cur : List GitAuthAppInstallation) :
    JSON → List GitAuthAppInstallation × Option SDKError
  | .null => ([], none)
  | .array elems => decodeElems {} decodeGitAuthAppInstallation cur elems
  | v => (cur, some (unmarshalTypeError v.kind "[]codersdk.GitAuthAppInstallation"))

/-- One member of a JSON object stored into a `GitAuth`, by the JSON names of its tags. -/
def GitAuth.setMember (acc : GitAuth × Option SDKError) (m : String × JSON) :
    GitAuth × Option SDKError :=
  if equalFold m.1 "authenticated" then
    let r := decodeBool acc.1.Authenticated m.2
    ({ acc.1 with Authenticated := r.1 }, saveError acc.2 r.2)
  else if equalFold m.1 "device" then
    let r := decodeBool acc.1.Device m.2
    ({ acc.1 with Device := r.1 }, saveError acc.2 r.2)
  else if equalFold m.1 "type" then
    let r := decodeString acc.1.Type_ m.2
    ({ acc.1 with Type_ := r.1 }, saveError acc.2 r.2)
  else if equalFold m.1 "user" then
    let r := decodeGitAuthUserPtr acc.1.User m.2
    ({ acc.1 with User := r.1 }, saveError acc.2 r.2)
  else if equalFold m.1 "app_installable" then
    let r := decodeBool acc.1.AppInstallable m.2
    ({ acc.1 with AppInstallable := r.1 }, saveError acc.2 r.2)
  else if equalFold m.1 "installations" then
    let r := decodeGitAuthAppInstallations acc.1.AppInstallations m.2
    ({ acc.1 with AppInstallations := r.1 }, saveError acc.2 r.2)
  else if equalFold m.1 "app_install_url" then
    let r := decodeString acc.1.AppInstallURL m.2
    ({ acc.1 with AppInstallURL := r.1 }, saveError acc.2 r.2)
  else acc

/-- Decoding into a `GitAuth` that holds `cur`. -/
def decodeGitAuthInto (cur : GitAuth) : JSON → GitAuth × Option SDKError
  | .null => (cur, none)
  | .object members => members.foldl GitAuth.setMember (cur, none)
  | v => (cur, some (unmarshalTypeError v.kind "codersdk.GitAuth"))

/-- The call `json.NewDecoder(res.Body).Decode(&gitauth)` with `var gitauth GitAuth`. -/
def decodeGitAuth : Body → GitAuth × Option SDKError
  | .invalid _ => ({}, some (.decode "json: no valid JSON value"))
  | .value doc => decodeGitAuthInto {} doc

/-- One member of a JSON object stored into a `GitAuthDevice`. -/
def GitAuthDevice.setMember (acc : GitAuthDevice × Option SDKError) (m : String × JSON) :
    GitAuthDevice × Option SDKError :=
  if equalFold m.1 "device_code" then
    let r := decodeString acc.1.DeviceCode m.2
    ({ acc.1 with DeviceCode := r.1 }, saveError acc.2 r.2)
  else if equalFold m.1 "user_code" then
    let r := decodeString acc.1.UserCode m.2
    ({ acc.1 with UserCode := r.1 }, saveError acc.2 r.2)
  else if equalFold m.1 "verification_uri" then
    let r := decodeString acc.1.VerificationURI m.2
    ({ acc.1 with VerificationURI := r.1 }, saveError acc.2 r.2)
  else if equalFold m.1 "expires_in" then
    let r := decodeInt acc.1.ExpiresIn m.2
    ({ acc.1 with ExpiresIn := r.1 }, saveError acc.2 r.2)
  else if equalFold m.1 "interval" then
    let r := decodeInt acc.1.Interval m.2
    ({ acc.1 with Interval := r.1 }, saveError acc.2 r.2)
  else acc

/-- The call `json.NewDecoder(res.Body).Decode(&gitauth)` with `var gitauth GitAuthDevice`. -/
def decodeGitAuthDevice : Body → GitAuthDevice × Option SDKError
  | .invalid _ => ({}, some (.decode "json: no valid JSON value"))
  | .value .null => ({}, none)
  | .value (.object members) => members.foldl GitAuthDevice.setMember ({}, none)
  | .value v => ({}, some (unmarshalTypeError v.kind "codersdk.GitAuthDevice"))

/-- One member of a JSON object stored into a `GitRepo`; its fields carry no tag, so the
JSON names are the field names. -/
def GitRepo.setMember (acc : GitRepo × Option SDKError) (m : String × JSON) :
    GitRepo × Option SDKError :=
  if equalFold m.1 "Name" then
    let r := decodeString acc.1.Name m.2
    ({ acc.1 with Name := r.1 }, saveError acc.2 r.2)
  else if equalFold m.1 "Description" then
    let r := decodeString acc.1.Description m.2
    ({ acc.1 with Description := r.1 }, saveError acc.2 r.2)
  else if equalFold m.1 "Owner" then
    let r := decodeGitAuthUser acc.1.Owner m.2
    ({ acc.1 with Owner := r.1 }, saveError acc.2 r.2)
  else if equalFold m.1 "URL" then
    let r := decodeString acc.1.URL m.2
    ({ acc.1 with URL := r.1 }, saveError acc.2 r.2)
  else if equalFold m.1 "StargazersCount" then
    let r := decodeInt acc.1.StargazersCount m.2
    ({ acc.1 with StargazersCount := r.1 }, saveError acc.2 r.2)
  else if equalFold m.1 "Language" then
    let r := decodeString acc.1.Language m.2
    ({ acc.1 with Language := r.1 }, saveError acc.2 r.2)
  else if equalFold m.1 "DefaultBranch" then
    let r := decodeString acc.1.DefaultBranch m.2
    ({ acc.1 with DefaultBranch := r.1 }, saveError acc.2 r.2)
  else acc

/-- Decoding into a `GitRepo` that holds `cur`. -/
def decodeGitRepo (cur : GitRepo) : JSON → GitRepo × Option SDKError
  | .null => (cur, none)
  | .object members => members.foldl GitRepo.setMember (cur, none)
  | v => (cur, some (unmarshalTypeError v.kind "codersdk.GitRepo"))

/-- Decoding into a `[]GitRepo` that holds `cur`. -/
def decodeGitRepos (cur : List GitRepo) : JSON → List GitRepo × Option SDKError
  | .null => ([], none)
  | .array elems => decodeElems {} decodeGitRepo cur elems
  | v => (cur, some (unmarshalTypeError v.kind "[]codersdk.GitRepo"))

/-- One member of a JSON object stored into a `GitReposResponse`. -/
def GitReposResponse.setMember (acc : GitReposResponse × Option SDKError)
    (m : String × JSON) : GitReposResponse × Option SDKError :=
  if equalFold m.1 "total" then
    let r := decodeInt acc.1.Total m.2
    ({ acc.1 with Total := r.1 }, saveError acc.2 r.2)
  else if equalFold m.1 "repos" then
    let r := decodeGitRepos acc.1.Repos m.2
    ({ acc.1 with Repos := r.1 }, saveError acc.2 r.2)
  else acc

/-- The call `json.NewDecoder(res.Body).Decode(&repos)` with `var repos GitReposResponse`. -/
def decodeGitReposResponse : Body → GitReposResponse × Option SDKError
  | .invalid _ => ({}, some (.decode "json: no valid JSON value"))
  | .value .null => ({}, none)
  | .value (.object members) => members.foldl GitReposResponse.setMember ({}, none)
  | .value v => ({}, some (unmarshalTypeError v.kind "codersdk.GitReposResponse"))

/-! ## The operations of `gitauth.go` -/

/-- The method `Client.GitAuthDeviceByID`. The `return gitauth, Decode(&gitauth)` of the
source reads `gitauth` after the call has filled it, as the Go compiler orders it. -/
def Client.GitAuthDeviceByID (c : Client) (decode : Decoder GitAuthDevice)
    (provider : String) : Result GitAuthDevice :=
  let path := "/api/v2/gitauth/" ++ provider ++ "/device"
  let call := Event.Request MethodGet path (c.sent MethodGet path none [])
  match c.Request MethodGet path none [] with
  | .error err => ⟨{}, some err, [call]⟩
  | .ok res =>
    if res.StatusCode ≠ StatusOK then
      ⟨{}, ReadBodyAsError res, [call, .ReadBodyAsError, .Close]⟩
    else
      let decoded := decode res.Body
      ⟨decoded.1, decoded.2, [call, .Decode, .Close]⟩

/-- The method `Client.GitAuthDeviceExchange` ("exchanges a device code for a git auth
token"); it returns only an error. -/
def Client.GitAuthDeviceExchange (c : Client) (provider : String)
    (req : GitAuthDeviceExchange) : Result Unit :=
  let path := "/api/v2/gitauth/" ++ provider ++ "/device"
  let call := Event.Request MethodPost path (c.sent MethodPost path (some req.toJSON) [])
  match c.Request MethodPost path (some req.toJSON) [] with
  | .error err => ⟨(), some err, [call]⟩
  | .ok res =>
    if res.StatusCode ≠ StatusNoContent then
      ⟨(), ReadBodyAsError res, [call, .ReadBodyAsError, .Close]⟩
    else
      ⟨(), none, [call, .Close]⟩

/-- The method `Client.GitAuthByID` ("returns the git auth for the given provider by ID"). -/
def Client.GitAuthByID (c : Client) (decode : Decoder GitAuth)
    (provider : String) : Result GitAuth :=
  let path := "/api/v2/gitauth/" ++ provider
  let call := Event.Request MethodGet path (c.sent MethodGet path none [])
  match c.Request MethodGet path none [] with
  | .error err => ⟨{}, some err, [call]⟩
  | .ok res =>
    if res.StatusCode ≠ StatusOK then
      ⟨{}, ReadBodyAsError res, [call, .ReadBodyAsError, .Close]⟩
    else
      let decoded := decode res.Body
      ⟨decoded.1, decoded.2, [call, .Decode, .Close]⟩

/-- The state at the end of the function literal that `GitAuthReposByID` passes to
`c.Request`: the request `r` it was given and its local variable `q`. -/
structure QueryState where
  r : Request
  q : Values
  deriving Repr

/-- The body of the function literal in `GitAuthReposByID`, statement by statement.
`q := r.URL.Query()` parses the raw query into a fresh map; each `q.Set` changes that map;
no statement assigns to `r` or to a field of `r.URL`. -/
def reposQueryState (opts : GitReposOptions) (r : Request) : QueryState :=
  let q := r.URL.Query
  let q := if opts.Page > 0 then q.Set "page" (Itoa opts.Page) else q
  let q := if opts.PerPage > 0 then q.Set "per_page" (Itoa opts.PerPage) else q
  let q := if opts.InstallationID > 0 then
    q.Set "installation_id" (Itoa opts.InstallationID) else q
  ⟨r, q⟩

/-- The function literal of `GitAuthReposByID` as a request option: what it leaves of the
request it ran on. -/
def reposRequestOption (opts : GitReposOptions) : RequestOption :=
  fun r => (reposQueryState opts r).r

/-- The method `Client.GitAuthReposByID` ("lists the git repos for the given provider by
ID"); `opts` is a pointer, `none` is nil. -/
def Client.GitAuthReposByID (c : Client) (decode : Decoder GitReposResponse)
    (provider : String) (opts : Option GitReposOptions) : Result GitReposResponse :=
  let opts := match opts with
    | none => ({} : GitReposOptions)
    | some o => o
  let path := "/api/v2/gitauth/" ++ provider ++ "/repos"
  let call := Event.Request MethodGet path (c.sent MethodGet path none [reposRequestOption opts])
  match c.Request MethodGet path none [reposRequestOption opts] with
  | .error err => ⟨{}, some err, [call]⟩
  | .ok res =>
    if res.StatusCode ≠ StatusOK then
      ⟨{}, ReadBodyAsError res, [call, .ReadBodyAsError, .Close]⟩
    else
      let decoded := decode res.Body
      ⟨decoded.1, decoded.2, [call, .Decode, .Close]⟩

/-- The request a recorded call was performed on, if it is a transport call that got as far
as a request. -/
def Event.sent? : Event → Option Codersdk.Request
  | .Request _ _ sent => sent
  | _ => none

/-- The requests an operation has sent, in order. -/
def Result.sentRequests {α : Type} (res : Result α) : List Request :=
  res.calls.filterMap Event.sent?

/-! ## A concrete deployment, for evaluating the operations -/

/-- Request construction of the example client: the path is resolved against the server
`https://coder.example.com`; a fragment is dropped and the text after the first `?` is the
raw query. -/
def exampleNewRequest (method path : String) (body : Option JSON) : Except SDKError Request :=
  let noFragment := (cut '#' path.toList).1
  let parts := cut '?' noFragment
  .ok { Method := method,
        URL := { Scheme := "https", Host := "coder.example.com",
                 Path := String.mk parts.1, RawQuery := String.mk parts.2.1 },
        Body := body }

/-- The example server: the provider `github` is configured, its device flow is pending, the
session is not authenticated although the payload names a user, and one repository is
listed; every other path is answered 404. -/
def exampleServer (r : Request) : Except SDKError Response :=
  if r.URL.Path = "/api/v2/gitauth/github/device" then
    if r.Method = MethodGet then
      .ok ⟨200, .value (.object [("device_code", .string "abc"),
        ("user_code", .string "WXYZ-1234"),
        ("verification_uri", .string "https://github.com/login/device"),
        ("expires_in", .number 900), ("interval", .number 5)])⟩
    else
      .ok ⟨400, .value (.object [("message", .string "authorization_pending")])⟩
  else if r.URL.Path = "/api/v2/gitauth/github" then
    .ok ⟨200, .value (.object [("authenticated", .bool false),
      ("user", .object [("login", .string "octocat")])])⟩
  else if r.URL.Path = "/api/v2/gitauth/github/repos" then
    .ok ⟨200, .value (.object [("total", .number 150),
      ("repos", .array [.object [("Name", .string "coder")]])])⟩
  else if r.URL.Path = "/api/v2/gitauth/gitlab" then
    .ok ⟨200, .invalid "<html>"⟩
  else
    .ok ⟨404, .value (.object [("message", .string "Resource not found")])⟩

/-- The example client, talking to the example server. -/
def exampleClient : Client :=
  { NewRequest := exampleNewRequest, Do := exampleServer }

/-- A client whose round trips all fail: the server cannot be reached. -/
def offlineClient : Client :=
  { NewRequest := exampleNewRequest, Do := fun _ => .error (.transport "connection refused") }

/-- A client whose server answers every request with `res`. -/
def staticClient (res : Response) : Client :=
  { NewRequest := exampleNewRequest, Do := fun _ => .ok res }

/-! ## Lemmas on query values and on the requests sent -/

theorem cut_rest_length (sep : Char) (l : List Char) :
    (cut sep l).2.1.length ≤ l.length - 1 := by
  induction l with
  | nil => simp [cut]
  | cons c cs ih =>
    unfold cut
    by_cases h : c = sep
    · simp [h]
    · simp only [h, if_false, List.length_cons, Nat.add_sub_cancel]
      omega

theorem parseQueryLoop_fuel (fuel1 : Nat) :
    ∀ (fuel2 : Nat) (m : Values) (query : List Char),
      query.length ≤ fuel1 → query.length ≤ fuel2 →
      parseQueryLoop fuel1 m query = parseQueryLoop fuel2 m query := by
  induction fuel1 with
  | zero =>
    intro fuel2 m query h1 _
    have hq : query = [] := List.length_eq_zero.mp (Nat.le_zero.mp h1)
    subst hq
    cases fuel2 <;> simp [parseQueryLoop]
  | succ n ih =>
    intro fuel2 m query h1 h2
    cases fuel2 with
    | zero =>
      have hq : query = [] := List.length_eq_zero.mp (Nat.le_zero.mp h2)
      subst hq
      simp [parseQueryLoop]
    | succ k =>
      by_cases hq : query = []
      · simp [parseQueryLoop, hq]
      · have hlen := cut_rest_length '&' query
        have hpos : 0 < query.length := List.length_pos.mpr hq
        simp only [parseQueryLoop, hq, if_false]
        exact ih k _ _ (by omega) (by omega)

/-- The fuel of `URL.Query` is enough: any larger bound parses the raw query to the same
values. -/
theorem URL.Query_fuel (u : URL) (fuel : Nat) (h : u.RawQuery.length ≤ fuel) :
    parseQueryLoop fuel [] u.RawQuery.toList = u.Query := by
  unfold URL.Query
  exact parseQueryLoop_fuel fuel _ _ _ (by simpa using h) (by simp)

theorem lookup_filter_ne (v : Values) (key other : String) (h : other ≠ key) :
    (v.filter (fun kv => kv.1 != key)).lookup other = v.lookup other := by
  induction v with
  | nil => rfl
  | cons kv rest ih =>
    obtain ⟨k, x⟩ := kv
    by_cases hk : k = key
    · subst hk
      have hne : (other == k) = false := by simpa using h
      simp [List.filter, List.lookup, hne, ih]
    · have hk2 : (k != key) = true := by simpa using hk
      simp only [List.filter, hk2, List.lookup]
      cases hok : (other == k) <;> simp [ih]

theorem Values.index_Set (v : Values) (key value other : String) :
    (v.Set key value).index other = if other = key then [value] else v.index other := by
  unfold Values.Set Values.index
  by_cases h : other = key
  · subst h
    simp [List.lookup]
  · have hne : (other == key) = false := by simpa using h
    simp [List.lookup, hne, h, lookup_filter_ne v key other h]

/-- The request recorded by `Client.sent` is the one `Client.Request` performs its round
trip on. -/
theorem Client.Request_of_sent (c : Client) (method path : String) (body : Option JSON)
    (opts : List RequestOption) (r : Codersdk.Request)
    (h : c.sent method path body opts = some r) :
    c.Request method path body opts = c.Do r := by
  unfold Client.sent at h
  unfold Client.Request
  cases hreq : c.NewRequest method path body with
  | error err => simp [hreq] at h
  | ok req =>
    simp only [hreq, Option.some.injEq] at h
    simp [h]

theorem reposQueryState_r (opts : GitReposOptions) (r : Request) :
    (reposQueryState opts r).r = r := by
  simp [reposQueryState]

theorem sent_reposRequestOption (c : Client) (method path : String) (body : Option JSON)
    (opts : GitReposOptions) :
    c.sent method path body [reposRequestOption opts] = c.sent method path body [] := by
  unfold Client.sent
  cases c.NewRequest method path body <;> simp [reposRequestOption, reposQueryState_r]

theorem GitAuthReposByID_sentRequests (c : Client) (decode : Decoder GitReposResponse)
    (provider : String) (opts : Option GitReposOptions) :
    (c.GitAuthReposByID decode provider opts).sentRequests
      = (c.sent MethodGet ("/api/v2/gitauth/" ++ provider ++ "/repos") none
          [reposRequestOption (opts.getD {})]).toList := by
  have hopts : (match opts with
      | none => ({} : GitReposOptions)
      | some o => o) = opts.getD {} := by cases opts <;> rfl
  unfold Client.GitAuthReposByID
  simp only [hopts]
  cases c.Request MethodGet ("/api/v2/gitauth/" ++ provider ++ "/repos") none
      [reposRequestOption (opts.getD {})] with
  | error err =>
    cases hs : c.sent MethodGet ("/api/v2/gitauth/" ++ provider ++ "/repos") none
      [reposRequestOption (opts.getD {})] <;>
      simp [Result.sentRequests, Event.sent?, hs]
  | ok res =>
    by_cases hst : res.StatusCode ≠ StatusOK <;>
    cases hs : c.sent MethodGet ("/api/v2/gitauth/" ++ provider ++ "/repos") none
      [reposRequestOption (opts.getD {})] <;>
      simp [Result.sentRequests, Event.sent?, hs, hst]

/-! ## The request option of `GitAuthReposByID` -/

/-- C10: for every `opts`, the function literal that `GitAuthReposByID` passes to `c.Request`
leaves the request as it was, its URL and raw query string in particular, and the request
the round trip is performed on is the one that would be sent with no request option at
all; the `page`, `per_page` and `installation_id` values are set on the local map `q`
only. -/
theorem reposRequestOption_leaves_request (opts : GitReposOptions) (r : Request)
    (c : Client) (path : String) :
    reposRequestOption opts r = r
    ∧ (reposRequestOption opts r).URL = r.URL
    ∧ (reposRequestOption opts r).URL.RawQuery = r.URL.RawQuery
    ∧ c.sent MethodGet path none [reposRequestOption opts] = c.sent MethodGet path none []
    ∧ (reposQueryState opts r).q.index "page"
        = (if opts.Page > 0 then [Itoa opts.Page] else r.URL.Query.index "page")
    ∧ (reposQueryState opts r).q.index "per_page"
        = (if opts.PerPage > 0 then [Itoa opts.PerPage] else r.URL.Query.index "per_page")
    ∧ (reposQueryState opts r).q.index "installation_id"
        = (if opts.InstallationID > 0 then [Itoa opts.InstallationID]
           else r.URL.Query.index "installation_id") := by
  have hr : reposRequestOption opts r = r := reposQueryState_r opts r
  refine ⟨hr, by rw [hr], by rw [hr], sent_reposRequestOption c MethodGet path none opts,
    ?_, ?_, ?_⟩
  · unfold reposQueryState
    by_cases h1 : opts.Page > 0 <;> by_cases h2 : opts.PerPage > 0 <;>
      by_cases h3 : opts.InstallationID > 0 <;> simp [h1, h2, h3, Values.index_Set]
  · unfold reposQueryState
    by_cases h1 : opts.Page > 0 <;> by_cases h2 : opts.PerPage > 0 <;>
      by_cases h3 : opts.InstallationID > 0 <;> simp [h1, h2, h3, Values.index_Set]
  · unfold reposQueryState
    by_cases h1 : opts.Page > 0 <;> by_cases h2 : opts.PerPage > 0 <;>
      by_cases h3 : opts.InstallationID > 0 <;> simp [h1, h2, h3, Values.index_Set]

/-- C1: `GitAuthReposByID` of the example client for provider `github` with
`opts = (Page 2, PerPage 50, InstallationID 42)`: the function literal has put the three
values into its local map, but the one request sent has an empty raw query, and its parsed
query has no `page`, `per_page` or `installation_id`. -/
theorem GitAuthReposByID_query_not_sent :
    (exampleClient.GitAuthReposByID decodeGitReposResponse "github"
        (some { Page := 2, PerPage := 50, InstallationID := 42 })).sentRequests.map
      (fun r => (r.URL.Path, r.URL.RawQuery, r.URL.Query))
      = [("/api/v2/gitauth/github/repos", "", [])]
    ∧ (reposQueryState { Page := 2, PerPage := 50, InstallationID := 42 }
        { Method := MethodGet, URL := { Path := "/api/v2/gitauth/github/repos" } }).q
      = [("installation_id", ["42"]), ("per_page", ["50"]), ("page", ["2"])] := by
  decide

/-- C6: `GitAuthReposByID` of the example client for provider `github` with
`InstallationID = 42` (and no page settings): `installation_id` is set to `42` in the local
map of the function literal, yet the request sent has no `installation_id` parameter. -/
theorem GitAuthReposByID_installation_id_not_sent :
    (exampleClient.GitAuthReposByID decodeGitReposResponse "github"
        (some { InstallationID := 42 })).sentRequests.map
      (fun r => (r.URL.RawQuery, r.URL.Query.Has "installation_id")) = [("", false)]
    ∧ (reposQueryState { InstallationID := 42 }
        { Method := MethodGet, URL := { Path := "/api/v2/gitauth/github/repos" } }).q.index
          "installation_id" = ["42"] := by
  decide

/-- C7: `GitAuthReposByID` of the example client for provider `github` with `PerPage = 250`:
the local map of the function literal holds `per_page=250`, unclamped, yet the request sent
has no `per_page` parameter at all. -/
theorem GitAuthReposByID_per_page_not_sent :
    (exampleClient.GitAuthReposByID decodeGitReposResponse "github"
        (some { PerPage := 250 })).sentRequests.map
      (fun r => (r.URL.RawQuery, r.URL.Query.Has "per_page", r.URL.Query.index "per_page"))
      = [("", false, [])]
    ∧ (reposQueryState { PerPage := 250 }
        { Method := MethodGet, URL := { Path := "/api/v2/gitauth/github/repos" } }).q.index
          "per_page" = ["250"] := by
  decide

/-- C2, as stated, fails: for provider `github` and nil `opts` the example client sends one
request, which carries neither `page=1` nor `per_page=30`; the function literal does not
even put them into its local map, which stays empty. -/
theorem GitAuthReposByID_nil_opts_sends_no_defaults :
    (exampleClient.GitAuthReposByID decodeGitReposResponse "github" none).sentRequests.map
      (fun r => (r.URL.Query.index "page", r.URL.Query.index "per_page")) = [([], [])]
    ∧ (exampleClient.GitAuthReposByID decodeGitReposResponse "github" none).sentRequests.map
      (fun r => (r.URL.Query.index "page", r.URL.Query.index "per_page")) ≠ [(["1"], ["30"])]
    ∧ (reposQueryState {}
        { Method := MethodGet, URL := { Path := "/api/v2/gitauth/github/repos" } }).q = [] := by
  decide

/-- C2, amended: when `opts` is nil or has `Page <= 0` and `PerPage <= 0`, `GitAuthReposByID`
applies no default of its own. The function literal sets neither `page` nor `per_page` in
its local map (both stay as the request URL had them), the request sent carries the same
`page` and `per_page` entries as the request built from the path, and nil `opts` behaves
exactly like the zero-valued `GitReposOptions`. -/
theorem GitAuthReposByID_no_client_defaults (c : Client) (decode : Decoder GitReposResponse)
    (provider : String) (opts : Option GitReposOptions)
    (h : ∀ o, opts = some o → o.Page ≤ 0 ∧ o.PerPage ≤ 0) :
    (∀ r : Request,
        (reposQueryState (opts.getD {}) r).q.index "page" = r.URL.Query.index "page"
        ∧ (reposQueryState (opts.getD {}) r).q.index "per_page"
            = r.URL.Query.index "per_page")
    ∧ (c.GitAuthReposByID decode provider opts).sentRequests.map
        (fun r => (r.URL.Query.index "page", r.URL.Query.index "per_page"))
      = (c.sent MethodGet ("/api/v2/gitauth/" ++ provider ++ "/repos") none []).toList.map
        (fun r => (r.URL.Query.index "page", r.URL.Query.index "per_page"))
    ∧ c.GitAuthReposByID decode provider none = c.GitAuthReposByID decode provider (some {}) := by
  have hz : (opts.getD {}).Page ≤ 0 ∧ (opts.getD {}).PerPage ≤ 0 := by
    cases opts with
    | none => exact ⟨le_refl _, le_refl _⟩
    | some o => exact h o rfl
  refine ⟨?_, ?_, rfl⟩
  · intro r
    have h1 : ¬ (opts.getD {}).Page > 0 := not_lt.mpr hz.1
    have h2 : ¬ (opts.getD {}).PerPage > 0 := not_lt.mpr hz.2
    unfold reposQueryState
    by_cases h3 : (opts.getD {}).InstallationID > 0 <;>
      simp [h1, h2, h3, Values.index_Set]
  · rw [GitAuthReposByID_sentRequests, sent_reposRequestOption]

/-- C2, amended, at an instance: the example client, provider `github`, and options with a
negative page and a zero page size. -/
theorem GitAuthReposByID_no_client_defaults_witness :
    (∀ r : Request,
        (reposQueryState ((some ({ Page := -1 } : GitReposOptions)).getD {}) r).q.index "page"
          = r.URL.Query.index "page"
        ∧ (reposQueryState ((some ({ Page := -1 } : GitReposOptions)).getD {}) r).q.index
            "per_page" = r.URL.Query.index "per_page")
    ∧ (exampleClient.GitAuthReposByID decodeGitReposResponse "github"
          (some { Page := -1 })).sentRequests.map
        (fun r => (r.URL.Query.index "page", r.URL.Query.index "per_page"))
      = (exampleClient.sent MethodGet ("/api/v2/gitauth/" ++ "github" ++ "/repos") none
          []).toList.map
        (fun r => (r.URL.Query.index "page", r.URL.Query.index "per_page"))
    ∧ exampleClient.GitAuthReposByID decodeGitReposResponse "github" none
      = exampleClient.GitAuthReposByID decodeGitReposResponse "github" (some {}) :=
  GitAuthReposByID_no_client_defaults exampleClient decodeGitReposResponse "github"
    (some { Page := -1 })
    (fun o ho => by
      cases ho
      decide)

/-! ## Status handling of the four operations -/

/-- C3: when the transport answers the exchange with a response of status `s`,
`GitAuthDeviceExchange` returns nil exactly when `s = 204`; for every other status (200
and the other 2xx included) it returns the error that `ReadBodyAsError` builds from that
response, which is not nil. -/
theorem GitAuthDeviceExchange_nil_iff_204 (c : Client) (provider : String)
    (req : GitAuthDeviceExchange) (res : Response)
    (h : c.Request MethodPost ("/api/v2/gitauth/" ++ provider ++ "/device")
      (some req.toJSON) [] = .ok res) :
    ((c.GitAuthDeviceExchange provider req).err = none ↔ res.StatusCode = 204)
    ∧ (res.StatusCode ≠ 204 →
        (c.GitAuthDeviceExchange provider req).err = ReadBodyAsError res
        ∧ (c.GitAuthDeviceExchange provider req).err ≠ none) := by
  unfold Client.GitAuthDeviceExchange
  simp only [h]
  by_cases hst : res.StatusCode = 204
  · simp [hst, StatusNoContent]
  · simp [hst, StatusNoContent, ReadBodyAsError]

/-- C3 at an instance: a server that answers the exchange with 200 and an empty body; the
exchange fails with the error of `ReadBodyAsError`. -/
theorem GitAuthDeviceExchange_nil_iff_204_witness :
    (staticClient ⟨200, .invalid ""⟩).Request MethodPost
        ("/api/v2/gitauth/" ++ "github" ++ "/device")
        (some (GitAuthDeviceExchange.toJSON ⟨"abc"⟩)) [] = .ok ⟨200, .invalid ""⟩
    ∧ ((((staticClient ⟨200, .invalid ""⟩).GitAuthDeviceExchange "github" ⟨"abc"⟩).err = none
          ↔ (⟨200, .invalid ""⟩ : Response).StatusCode = 204)
      ∧ ((⟨200, .invalid ""⟩ : Response).StatusCode ≠ 204 →
          ((staticClient ⟨200, .invalid ""⟩).GitAuthDeviceExchange "github" ⟨"abc"⟩).err
            = ReadBodyAsError ⟨200, .invalid ""⟩
          ∧ ((staticClient ⟨200, .invalid ""⟩).GitAuthDeviceExchange "github" ⟨"abc"⟩).err
            ≠ none)) :=
  ⟨rfl, GitAuthDeviceExchange_nil_iff_204 (staticClient ⟨200, .invalid ""⟩) "github" ⟨"abc"⟩
    ⟨200, .invalid ""⟩ rfl⟩

/-- C4: for `GitAuthDeviceByID`, `GitAuthByID` and `GitAuthReposByID` and every response of
the transport: with status 200 and a body that decodes, the operation returns exactly the
decoded value (for the repositories, `Total` and `Repos` as the body has them) and no
error; with any other status it returns the zero value and the error of `ReadBodyAsError`,
and the decoder is not called. -/
theorem read_operations_by_status (c : Client) (dDevice : Decoder GitAuthDevice)
    (dAuth : Decoder GitAuth) (dRepos : Decoder GitReposResponse) (provider : String)
    (opts : Option GitReposOptions) :
    (∀ res, c.Request MethodGet ("/api/v2/gitauth/" ++ provider ++ "/device") none []
          = .ok res →
        (res.StatusCode = 200 → (dDevice res.Body).2 = none →
          (c.GitAuthDeviceByID dDevice provider).value = (dDevice res.Body).1
          ∧ (c.GitAuthDeviceByID dDevice provider).err = none)
        ∧ (res.StatusCode ≠ 200 →
          (c.GitAuthDeviceByID dDevice provider).value = {}
          ∧ (c.GitAuthDeviceByID dDevice provider).err = ReadBodyAsError res
          ∧ Event.Decode ∉ (c.GitAuthDeviceByID dDevice provider).calls))
    ∧ (∀ res, c.Request MethodGet ("/api/v2/gitauth/" ++ provider) none [] = .ok res →
        (res.StatusCode = 200 → (dAuth res.Body).2 = none →
          (c.GitAuthByID dAuth provider).value = (dAuth res.Body).1
          ∧ (c.GitAuthByID dAuth provider).err = none)
        ∧ (res.StatusCode ≠ 200 →
          (c.GitAuthByID dAuth provider).value = {}
          ∧ (c.GitAuthByID dAuth provider).err = ReadBodyAsError res
          ∧ Event.Decode ∉ (c.GitAuthByID dAuth provider).calls))
    ∧ (∀ res, c.Request MethodGet ("/api/v2/gitauth/" ++ provider ++ "/repos") none
          [reposRequestOption (opts.getD {})] = .ok res →
        (res.StatusCode = 200 → (dRepos res.Body).2 = none →
          (c.GitAuthReposByID dRepos provider opts).value = (dRepos res.Body).1
          ∧ (c.GitAuthReposByID dRepos provider opts).value.Total = (dRepos res.Body).1.Total
          ∧ (c.GitAuthReposByID dRepos provider opts).value.Repos = (dRepos res.Body).1.Repos
          ∧ (c.GitAuthReposByID dRepos provider opts).err = none)
        ∧ (res.StatusCode ≠ 200 →
          (c.GitAuthReposByID dRepos provider opts).value = {}
          ∧ (c.GitAuthReposByID dRepos provider opts).err = ReadBodyAsError res
          ∧ Event.Decode ∉ (c.GitAuthReposByID dRepos provider opts).calls)) := by
  have hopts : (match opts with
      | none => ({} : GitReposOptions)
      | some o => o) = opts.getD {} := by cases opts <;> rfl
  refine ⟨?_, ?_, ?_⟩
  · intro res h
    unfold Client.GitAuthDeviceByID
    simp only [h]
    refine ⟨fun hst hd => ?_, fun hst => ?_⟩
    · simp [hst, hd, StatusOK]
    · simp [hst, StatusOK]
  · intro res h
    unfold Client.GitAuthByID
    simp only [h]
    refine ⟨fun hst hd => ?_, fun hst => ?_⟩
    · simp [hst, hd, StatusOK]
    · simp [hst, StatusOK]
  · intro res h
    unfold Client.GitAuthReposByID
    simp only [hopts, h]
    refine ⟨fun hst hd => ?_, fun hst => ?_⟩
    · simp [hst, hd, StatusOK]
    · simp [hst, StatusOK]

/-- C4 at an instance: the example client and provider `github` (three 200 responses whose
bodies decode), read off at the device code, the session and the repository page. -/
theorem read_operations_by_status_witness :
    (exampleClient.GitAuthDeviceByID decodeGitAuthDevice "github").value
      = { DeviceCode := "abc", UserCode := "WXYZ-1234",
          VerificationURI := "https://github.com/login/device", ExpiresIn := 900,
          Interval := 5 }
    ∧ (exampleClient.GitAuthDeviceByID decodeGitAuthDevice "github").err = none
    ∧ (exampleClient.GitAuthByID decodeGitAuth "github").err = none
    ∧ (exampleClient.GitAuthReposByID decodeGitReposResponse "github" none).value.Total = 150
    ∧ (exampleClient.GitAuthReposByID decodeGitReposResponse "github" none).err = none
    ∧ (exampleClient.GitAuthByID decodeGitAuth "gitea").value = {}
    ∧ (exampleClient.GitAuthByID decodeGitAuth "gitea").err
        = some (.provider 404 "Resource not found") := by
  have h := read_operations_by_status exampleClient decodeGitAuthDevice decodeGitAuth
    decodeGitReposResponse "github" none
  have h404 := read_operations_by_status exampleClient decodeGitAuthDevice decodeGitAuth
    decodeGitReposResponse "gitea" none
  have hDevice := (h.1 _ rfl).1 (by decide) (by decide)
  have hAuth := (h.2.1 _ rfl).1 (by decide) (by decide)
  have hRepos := (h.2.2 _ rfl).1 (by decide) (by decide)
  have hMissing := (h404.2.1 _ rfl).2 (by decide)
  refine ⟨?_, hDevice.2, hAuth.2, ?_, hRepos.2.2.2, hMissing.1, ?_⟩
  · rw [hDevice.1]
    decide
  · rw [hRepos.2.1]
    decide
  · rw [hMissing.2.1]
    decide

/-! ## The session returned by `GitAuthByID` -/

theorem GitAuth.setMember_User_none (acc : GitAuth × Option SDKError) (m : String × JSON)
    (hacc : acc.1.User = none) (hm : equalFold m.1 "user" = true → m.2 = JSON.null) :
    (GitAuth.setMember acc m).1.User = none := by
  unfold GitAuth.setMember
  split_ifs with h1 h2 h3 h4 h5 h6 h7
  · exact hacc
  · exact hacc
  · exact hacc
  · simp [hm h4, decodeGitAuthUserPtr]
  · exact hacc
  · exact hacc
  · exact hacc
  · exact hacc

theorem GitAuth.foldl_setMember_User_none (members : List (String × JSON))
    (acc : GitAuth × Option SDKError) (hacc : acc.1.User = none)
    (hm : ∀ m ∈ members, equalFold m.1 "user" = true → m.2 = JSON.null) :
    (members.foldl GitAuth.setMember acc).1.User = none := by
  induction members generalizing acc with
  | nil => exact hacc
  | cons m rest ih =>
    simp only [List.foldl]
    apply ih
    · exact GitAuth.setMember_User_none acc m hacc (hm m (List.mem_cons_self _ _))
    · intro m' hm'
      exact hm m' (List.mem_cons_of_mem _ hm')

/-- C5, as stated, fails: the example server answers 200 with a body that has
`authenticated: false` next to a `user` object; `GitAuthByID` returns, without error, a
`GitAuth` with `Authenticated = false` and a populated `User`. -/
theorem GitAuthByID_unauthenticated_with_user :
    exampleClient.Request MethodGet "/api/v2/gitauth/github" none []
      = .ok ⟨200, .value (.object [("authenticated", .bool false),
          ("user", .object [("login", .string "octocat")])])⟩
    ∧ (exampleClient.GitAuthByID decodeGitAuth "github").err = none
    ∧ (exampleClient.GitAuthByID decodeGitAuth "github").value.Authenticated = false
    ∧ (exampleClient.GitAuthByID decodeGitAuth "github").value.User
        = some { Login := "octocat" }
    ∧ ¬ ((exampleClient.GitAuthByID decodeGitAuth "github").value.Authenticated = false →
        (exampleClient.GitAuthByID decodeGitAuth "github").value.User = none) :=
  ⟨rfl, by decide, by decide, by decide, by decide⟩

/-- C5, amended: `GitAuthByID` returns what the body decodes to and checks nothing. For a
200 response whose body carries no user (every `user` member of the JSON object is `null`,
or there is none, or the body is no object), the `User` of the returned `GitAuth` is nil,
whatever `Authenticated` is; in particular it is nil when `Authenticated = false`. -/
theorem GitAuthByID_user_nil_without_user_member (c : Client) (provider : String)
    (res : Response)
    (h : c.Request MethodGet ("/api/v2/gitauth/" ++ provider) none [] = .ok res)
    (hst : res.StatusCode = 200)
    (hbody : ∀ members, res.Body = .value (.object members) →
      ∀ m ∈ members, equalFold m.1 "user" = true → m.2 = JSON.null) :
    (c.GitAuthByID decodeGitAuth provider).value = (decodeGitAuth res.Body).1
    ∧ (c.GitAuthByID decodeGitAuth provider).value.User = none
    ∧ ((c.GitAuthByID decodeGitAuth provider).value.Authenticated = false →
        (c.GitAuthByID decodeGitAuth provider).value.User = none) := by
  have hval : (c.GitAuthByID decodeGitAuth provider).value = (decodeGitAuth res.Body).1 := by
    unfold Client.GitAuthByID
    simp [h, hst, StatusOK]
  have huser : (decodeGitAuth res.Body).1.User = none := by
    cases hb : res.Body with
    | invalid raw => rfl
    | value doc =>
      cases doc with
      | object members =>
        exact GitAuth.foldl_setMember_User_none members _ rfl (hbody members hb)
      | null => rfl
      | bool b => rfl
      | number n => rfl
      | float lit => rfl
      | string s => rfl
      | array elems => rfl
  exact ⟨hval, by rw [hval]; exact huser, fun _ => by rw [hval]; exact huser⟩

/-- C5, amended, at an instance: a server that answers 200 with `authenticated: false` and
`user: null`. -/
theorem GitAuthByID_user_nil_without_user_member_witness :
    ((staticClient ⟨200, .value (.object [("authenticated", .bool false),
        ("user", .null)])⟩).GitAuthByID decodeGitAuth "github").value.Authenticated = false
    ∧ ((staticClient ⟨200, .value (.object [("authenticated", .bool false),
        ("user", .null)])⟩).GitAuthByID decodeGitAuth "github").value.User = none :=
  ⟨by decide,
   (GitAuthByID_user_nil_without_user_member
    (staticClient ⟨200, .value (.object [("authenticated", .bool false), ("user", .null)])⟩)
    "github" ⟨200, .value (.object [("authenticated", .bool false), ("user", .null)])⟩
    rfl rfl
    (fun members hmem m hm hfold => by
      cases hmem
      simp only [List.mem_cons, List.mem_singleton, List.not_mem_nil, or_false] at hm
      rcases hm with rfl | rfl
      · exact absurd hfold (by decide)
      · rfl)).2.1⟩

/-! ## Errors of the transport and of the decoder -/

/-- C8: when `c.Request` fails with the error `e`, each of the four operations returns `e`
itself (next to the zero value of its result type, where it has one), and the one call to
`c.Request` is the only external call it has made: no second attempt, no
`ReadBodyAsError`, no decoder. -/
theorem transport_error_returned_unchanged (c : Client) (dDevice : Decoder GitAuthDevice)
    (dAuth : Decoder GitAuth) (dRepos : Decoder GitReposResponse) (provider : String)
    (req : GitAuthDeviceExchange) (opts : Option GitReposOptions) (e : SDKError) :
    (c.Request MethodGet ("/api/v2/gitauth/" ++ provider ++ "/device") none [] = .error e →
      (c.GitAuthDeviceByID dDevice provider).value = {}
      ∧ (c.GitAuthDeviceByID dDevice provider).err = some e
      ∧ (c.GitAuthDeviceByID dDevice provider).calls
          = [Event.Request MethodGet ("/api/v2/gitauth/" ++ provider ++ "/device")
              (c.sent MethodGet ("/api/v2/gitauth/" ++ provider ++ "/device") none [])])
    ∧ (c.Request MethodPost ("/api/v2/gitauth/" ++ provider ++ "/device")
          (some req.toJSON) [] = .error e →
      (c.GitAuthDeviceExchange provider req).err = some e
      ∧ (c.GitAuthDeviceExchange provider req).calls
          = [Event.Request MethodPost ("/api/v2/gitauth/" ++ provider ++ "/device")
              (c.sent MethodPost ("/api/v2/gitauth/" ++ provider ++ "/device")
                (some req.toJSON) [])])
    ∧ (c.Request MethodGet ("/api/v2/gitauth/" ++ provider) none [] = .error e →
      (c.GitAuthByID dAuth provider).value = {}
      ∧ (c.GitAuthByID dAuth provider).err = some e
      ∧ (c.GitAuthByID dAuth provider).calls
          = [Event.Request MethodGet ("/api/v2/gitauth/" ++ provider)
              (c.sent MethodGet ("/api/v2/gitauth/" ++ provider) none [])])
    ∧ (c.Request MethodGet ("/api/v2/gitauth/" ++ provider ++ "/repos") none
          [reposRequestOption (opts.getD {})] = .error e →
      (c.GitAuthReposByID dRepos provider opts).value = {}
      ∧ (c.GitAuthReposByID dRepos provider opts).err = some e
      ∧ (c.GitAuthReposByID dRepos provider opts).calls
          = [Event.Request MethodGet ("/api/v2/gitauth/" ++ provider ++ "/repos")
              (c.sent MethodGet ("/api/v2/gitauth/" ++ provider ++ "/repos") none
                [reposRequestOption (opts.getD {})])]) := by
  have hopts : (match opts with
      | none => ({} : GitReposOptions)
      | some o => o) = opts.getD {} := by cases opts <;> rfl
  refine ⟨fun h => ?_, fun h => ?_, fun h => ?_, fun h => ?_⟩
  · unfold Client.GitAuthDeviceByID
    simp [h]
  · unfold Client.GitAuthDeviceExchange
    simp [h]
  · unfold Client.GitAuthByID
    simp [h]
  · unfold Client.GitAuthReposByID
    simp only [hopts, h]
    simp

/-- C8 at an instance: the offline client; every operation returns the connection error and
has made one transport call. -/
theorem transport_error_returned_unchanged_witness :
    (offlineClient.GitAuthDeviceByID decodeGitAuthDevice "github").err
      = some (.transport "connection refused")
    ∧ (offlineClient.GitAuthDeviceExchange "github" ⟨"abc"⟩).err
      = some (.transport "connection refused")
    ∧ (offlineClient.GitAuthByID decodeGitAuth "github").value = {}
    ∧ (offlineClient.GitAuthReposByID decodeGitReposResponse "github"
        (some { Page := 2 })).calls.length = 1 := by
  have h := transport_error_returned_unchanged offlineClient decodeGitAuthDevice
    decodeGitAuth decodeGitReposResponse "github" ⟨"abc"⟩ (some { Page := 2 })
    (.transport "connection refused")
  refine ⟨(h.1 rfl).2.1, (h.2.1 rfl).1, (h.2.2.1 rfl).1, ?_⟩
  rw [(h.2.2.2 rfl).2.2]
  rfl

/-- C9: for `GitAuthDeviceByID`, `GitAuthByID` and `GitAuthReposByID`, when the response has
status 200 and the decoder fails on its body, the operation returns the decoder's error,
which is not nil. -/
theorem decode_failure_returned (c : Client) (dDevice : Decoder GitAuthDevice)
    (dAuth : Decoder GitAuth) (dRepos : Decoder GitReposResponse) (provider : String)
    (opts : Option GitReposOptions) :
    (∀ res, c.Request MethodGet ("/api/v2/gitauth/" ++ provider ++ "/device") none []
          = .ok res → res.StatusCode = 200 → (dDevice res.Body).2 ≠ none →
        (c.GitAuthDeviceByID dDevice provider).err ≠ none
        ∧ (c.GitAuthDeviceByID dDevice provider).err = (dDevice res.Body).2)
    ∧ (∀ res, c.Request MethodGet ("/api/v2/gitauth/" ++ provider) none [] = .ok res →
        res.StatusCode = 200 → (dAuth res.Body).2 ≠ none →
        (c.GitAuthByID dAuth provider).err ≠ none
        ∧ (c.GitAuthByID dAuth provider).err = (dAuth res.Body).2)
    ∧ (∀ res, c.Request MethodGet ("/api/v2/gitauth/" ++ provider ++ "/repos") none
          [reposRequestOption (opts.getD {})] = .ok res →
        res.StatusCode = 200 → (dRepos res.Body).2 ≠ none →
        (c.GitAuthReposByID dRepos provider opts).err ≠ none
        ∧ (c.GitAuthReposByID dRepos provider opts).err = (dRepos res.Body).2) := by
  have hopts : (match opts with
      | none => ({} : GitReposOptions)
      | some o => o) = opts.getD {} := by cases opts <;> rfl
  refine ⟨fun res h hst hd => ?_, fun res h hst hd => ?_, fun res h hst hd => ?_⟩
  · have herr : (c.GitAuthDeviceByID dDevice provider).err = (dDevice res.Body).2 := by
      unfold Client.GitAuthDeviceByID
      simp [h, hst, StatusOK]
    exact ⟨by rw [herr]; exact hd, herr⟩
  · have herr : (c.GitAuthByID dAuth provider).err = (dAuth res.Body).2 := by
      unfold Client.GitAuthByID
      simp [h, hst, StatusOK]
    exact ⟨by rw [herr]; exact hd, herr⟩
  · have herr : (c.GitAuthReposByID dRepos provider opts).err = (dRepos res.Body).2 := by
      unfold Client.GitAuthReposByID
      simp only [hopts, h]
      simp [hst, StatusOK]
    exact ⟨by rw [herr]; exact hd, herr⟩

/-- C9 at an instance: servers that answer 200 with an HTML page, with a JSON array and
with a `total` that is a string; each read operation returns a decode error. -/
theorem decode_failure_returned_witness :
    ((staticClient ⟨200, .invalid "<html>"⟩).GitAuthDeviceByID decodeGitAuthDevice
        "github").err ≠ none
    ∧ ((staticClient ⟨200, .value (.array [])⟩).GitAuthByID decodeGitAuth "github").err
        ≠ none
    ∧ ((staticClient ⟨200, .value (.object [("total", .string "150")])⟩).GitAuthReposByID
        decodeGitReposResponse "github" none).err ≠ none :=
  ⟨((decode_failure_returned (staticClient ⟨200, .invalid "<html>"⟩) decodeGitAuthDevice
      decodeGitAuth decodeGitReposResponse "github" none).1 _ rfl rfl (by decide)).1,
   ((decode_failure_returned (staticClient ⟨200, .value (.array [])⟩) decodeGitAuthDevice
      decodeGitAuth decodeGitReposResponse "github" none).2.1 _ rfl rfl (by decide)).1,
   ((decode_failure_returned (staticClient ⟨200, .value (.object [("total", .string "150")])⟩)
      decodeGitAuthDevice decodeGitAuth decodeGitReposResponse "github" none).2.2 _ rfl rfl
      (by decide)).1⟩

end Codersdk
